import Mathlib

/-!
Verification of the SmolD context-management subsystem
(`smold/context_manager.py`, `smold/agent.py`, `main.py`).

The Python code is shallowly embedded: the two deques `history` and
`interaction_token_counts` of `ConversationHistory` become Lean lists
(oldest element first, appends on the right, `popleft` removes the head),
`total_tokens` becomes an `Int` (Python ints are unbounded), and the
external `tiktoken` tokenizer is abstracted as a function
`tk : String → Nat` passed to every operation that counts tokens.
-/

namespace SmolD

/-- One user/assistant interaction pair, as stored by
`ConversationHistory.add_interaction`. -/
structure Interaction where
  user : String
  assistant : String
deriving DecidableEq, Repr

/-- State of `ConversationHistory` (`context_manager.py`, lines 11-156).
The two deques are lists with the oldest element at the head; the Python
deques carry `maxlen = max_interactions`, which is modelled inside
`deque_append` below. -/
structure ConversationHistory where
  max_interactions : Nat
  max_tokens : Nat
  history : List Interaction
  interaction_token_counts : List Nat
  total_tokens : Int
deriving DecidableEq, Repr

namespace ConversationHistory

/-- `ConversationHistory.__init__`: empty deques, zero running total. -/
def init (max_interactions max_tokens : Nat) : ConversationHistory :=
  { max_interactions := max_interactions
    max_tokens := max_tokens
    history := []
    interaction_token_counts := []
    total_tokens := 0 }

/-- `collections.deque(maxlen := m).append x`: when the deque already holds
`m` elements the oldest (leftmost) is silently discarded; with `m = 0`
every append is discarded. -/
def deque_append {α : Type} (m : Nat) (l : List α) (x : α) : List α :=
  (l ++ [x]).drop (l.length + 1 - m)

/-- Token cost of one interaction, as computed inline by
`add_interaction` (lines 85-87): `count_tokens(user) + 3` message overhead
plus `count_tokens(assistant) + 3` message overhead. -/
def interaction_cost (tk : String → Nat) (i : Interaction) : Nat :=
  (tk i.user + 3) + (tk i.assistant + 3)

/-- One iteration body of `_trim_to_token_limit`'s `while` loop:
`history.popleft()` followed by popping and subtracting the matching
token count (guarded by `if self.interaction_token_counts`). -/
def pop_oldest (ch : ConversationHistory) : ConversationHistory :=
  match ch.history with
  | [] => ch
  | _ :: rest =>
    match ch.interaction_token_counts with
    | [] => { ch with history := rest }
    | c :: cs =>
      { ch with
        history := rest
        interaction_token_counts := cs
        total_tokens := ch.total_tokens - (c : Int) }

/-- Fuel-indexed rendering of the `while` loop of `_trim_to_token_limit`
(lines 104-112): `while len(history) > 0 and total_tokens +
system_prompt_tokens > max_tokens: pop oldest`.  Each iteration removes
exactly one element, so `history.length` fuel reproduces the loop
exactly. -/
def trim_loop (system_prompt_tokens : Nat) :
    Nat → ConversationHistory → ConversationHistory
  | 0, ch => ch
  | fuel + 1, ch =>
    match ch.history with
    | [] => ch
    | _ :: _ =>
      if ch.total_tokens + (system_prompt_tokens : Int) > (ch.max_tokens : Int) then
        trim_loop system_prompt_tokens fuel ch.pop_oldest
      else ch

/-- `ConversationHistory._trim_to_token_limit` (lines 104-112). -/
def trim_to_token_limit (ch : ConversationHistory)
    (system_prompt_tokens : Nat) : ConversationHistory :=
  trim_loop system_prompt_tokens ch.history.length ch

/-- `ConversationHistory.add_interaction` (lines 70-102): compute the new
pair's token cost; if the deque is at capacity, pre-subtract the oldest
count (the deque append below performs the physical eviction); append the
pair and its cost; add the cost to the running total; finally trim. -/
def add_interaction (tk : String → Nat) (ch : ConversationHistory)
    (user_query assistant_response : String)
    (system_prompt_tokens : Nat := 0) : ConversationHistory :=
  let interaction : Interaction := ⟨user_query, assistant_response⟩
  let cost := interaction_cost tk interaction
  let ch1 :=
    if ch.history.length = ch.max_interactions then
      match ch.interaction_token_counts with
      | [] => ch
      | oldest :: _ => { ch with total_tokens := ch.total_tokens - (oldest : Int) }
    else ch
  let ch2 : ConversationHistory :=
    { ch1 with
      history := deque_append ch1.max_interactions ch1.history interaction
      interaction_token_counts :=
        deque_append ch1.max_interactions ch1.interaction_token_counts cost
      total_tokens := ch1.total_tokens + (cost : Int) }
  ch2.trim_to_token_limit system_prompt_tokens

/-- A `{role, content}` chat message, as produced by
`get_messages_for_llm` and `get_full_context_for_llm`. -/
structure Message where
  role : String
  content : String
deriving DecidableEq, Repr

/-- `ConversationHistory.get_messages_for_llm` (lines 114-136): flatten
each retained interaction into a user message followed by an assistant
message, oldest first. -/
def get_messages_for_llm (ch : ConversationHistory) : List Message :=
  (ch.history.map fun i =>
    [Message.mk "user" i.user, Message.mk "assistant" i.assistant]).flatten

/-- `ConversationHistory.clear` (lines 148-152). -/
def clear (ch : ConversationHistory) : ConversationHistory :=
  { ch with history := [], interaction_token_counts := [], total_tokens := 0 }

/-- `ConversationHistory.is_empty` (lines 154-156). -/
def is_empty (ch : ConversationHistory) : Bool :=
  ch.history.length = 0

end ConversationHistory

open ConversationHistory in
/-- State of `ContextManager` (`context_manager.py`, lines 159-238). -/
structure ContextManager where
  conversation : ConversationHistory
  system_prompt : String
  max_context_tokens : Nat
deriving DecidableEq, Repr

namespace ContextManager

/-- `ContextManager.__init__` (lines 162-172): fresh history with the
same token ceiling, empty system prompt. -/
def init (max_interactions max_context_tokens : Nat) : ContextManager :=
  { conversation := ConversationHistory.init max_interactions max_context_tokens
    system_prompt := ""
    max_context_tokens := max_context_tokens }

/-- `ContextManager.set_system_prompt` (lines 174-176). -/
def set_system_prompt (cm : ContextManager) (prompt : String) : ContextManager :=
  { cm with system_prompt := prompt }

/-- `ContextManager.add_interaction` (lines 178-182): the system prompt's
token cost is passed to the history as external overhead; Python's string
truthiness makes an empty prompt contribute 0 without tokenizing. -/
def add_interaction (tk : String → Nat) (cm : ContextManager)
    (user_query assistant_response : String) : ContextManager :=
  let system_tokens := if cm.system_prompt ≠ "" then tk cm.system_prompt else 0
  { cm with
    conversation :=
      cm.conversation.add_interaction tk user_query assistant_response system_tokens }

/-- `ContextManager.get_full_context_for_llm` (lines 184-206): prepend a
system message only when requested and the stored prompt is non-empty
(Python: `if include_system and self.system_prompt`). -/
def get_full_context_for_llm (cm : ContextManager)
    (include_system : Bool := true) : List ConversationHistory.Message :=
  (if include_system ∧ cm.system_prompt ≠ "" then
    [ConversationHistory.Message.mk "system" cm.system_prompt]
  else []) ++ cm.conversation.get_messages_for_llm

/-- `ContextManager.clear_conversation` (lines 223-225). -/
def clear_conversation (cm : ContextManager) : ContextManager :=
  { cm with conversation := cm.conversation.clear }

/-- `ContextManager.refresh_with_system_prompt` (lines 227-238): store the
new prompt, then trim the history with the new prompt's token cost, but
only when the combined total exceeds the ceiling. -/
def refresh_with_system_prompt (tk : String → Nat) (cm : ContextManager)
    (new_system_prompt : String) : ContextManager :=
  let cm1 := cm.set_system_prompt new_system_prompt
  let system_tokens := tk cm1.system_prompt
  if cm1.conversation.total_tokens + (system_tokens : Int)
      > (cm1.max_context_tokens : Int) then
    { cm1 with conversation := cm1.conversation.trim_to_token_limit system_tokens }
  else cm1

end ContextManager

/-! ## Raw message model for `count_messages_tokens`

`ConversationHistory.count_messages_tokens` (lines 45-68) iterates over
Python dicts whose values may be strings, lists of content blocks, or
anything else.  A dict is modelled as an association list (Python dicts
iterate in insertion order and cannot repeat a key, hence the `Nodup`
hypotheses in the theorems below). -/

/-- An element of a list-valued message field: a dict carrying a `text`
key, or any other item (non-dict, or dict without `text`). -/
inductive ContentItem where
  | textItem (text : String)
  | otherItem
deriving DecidableEq, Repr

/-- A Python dict value as inspected by `count_messages_tokens`:
a string, a list of content items, or anything else. -/
inductive FieldValue where
  | str (s : String)
  | list (items : List ContentItem)
  | other
deriving DecidableEq, Repr

/-- A chat message as a Python dict: key/value pairs in iteration order. -/
structure RawMessage where
  fields : List (String × FieldValue)
deriving DecidableEq, Repr

namespace ConversationHistory

/-- Tokens contributed by one field's value in the loop body of
`count_messages_tokens`: `isinstance(value, str)` branch, the
`isinstance(value, list)` branch summing nested `text` entries, and
nothing for any other value. -/
def field_value_tokens (tk : String → Nat) : FieldValue → Nat
  | .str s => tk s
  | .list items =>
    (items.map fun it =>
      match it with
      | .textItem t => tk t
      | .otherItem => 0).sum
  | .other => 0

/-- `ConversationHistory.count_messages_tokens` (lines 45-68): 3 tokens
of overhead per message, each field's value tokens, 1 extra token per
`name` key, and a final reply preamble of 3. -/
def count_messages_tokens (tk : String → Nat) (messages : List RawMessage) : Nat :=
  (messages.map fun m =>
    3 + (m.fields.map fun kv =>
      field_value_tokens tk kv.2 + (if kv.1 = "name" then 1 else 0)).sum).sum
  + 3

end ConversationHistory

/-! ## Session/agent layer (`agent.py`, `main.py`) -/

/-- Outcome of one call to the external tool-calling driver
(`self.base_agent.run`): either a returned response string or a raised
exception carrying a message. -/
inductive RunOutcome where
  | ok (response : String)
  | raises (msg : String)
deriving DecidableEq, Repr

/-- The context-relevant state of `SmolDAgent` (`agent.py`, lines
96-203): its `ContextManager` and the debug call counter. -/
structure SmolDAgentState where
  context_manager : ContextManager
  call_counter : Nat
deriving DecidableEq, Repr

namespace SmolDAgentState

/-- `SmolDAgent.run` (`agent.py`, lines 130-178).  The two calls to
`self.base_agent.run` are abstracted as the outcomes `wrapped_call`
(inside the `try`) and `fallback_call` (inside the `except` handler).
A response from either call is recorded via
`context_manager.add_interaction` and returned; an exception raised by
the fallback call is not caught and propagates (`Except.error`). -/
def run (tk : String → Nat) (st : SmolDAgentState) (query : String)
    (wrapped_call fallback_call : RunOutcome) :
    Except String (String × SmolDAgentState) :=
  let st1 := { st with call_counter := st.call_counter + 1 }
  match wrapped_call with
  | .ok response =>
    .ok (response,
      { st1 with
        context_manager := st1.context_manager.add_interaction tk query response })
  | .raises _ =>
    match fallback_call with
    | .ok response =>
      .ok (response,
        { st1 with
          context_manager := st1.context_manager.add_interaction tk query response })
    | .raises e => .error e

end SmolDAgentState

/-- The session data the `pro` command of `run_interactive_mode` reads
and replaces: the active model id and the agent's context manager. -/
structure Agent where
  model_id : String
  context_manager : ContextManager
deriving DecidableEq, Repr

/-- Python's `needle in haystack` substring test: some drop of the
haystack starts with the needle. -/
def str_contains (haystack needle : String) : Bool :=
  (List.range (haystack.toList.length + 1)).any fun k =>
    needle.toList.isPrefixOf (haystack.toList.drop k)

/-- `create_agent` (`agent.py`, lines 206-373), restricted to the state
in `Agent`: picks the model id from `use_pro`, builds a fresh
`SmolDAgent` whose `ContextManager(max_interactions := 10,
max_context_tokens := 600000)` starts with an empty history, and installs
the generated system prompt (always a non-empty string in practice,
passed here as a parameter since it is produced externally by
`get_system_prompt(cwd)`). -/
def create_agent (use_pro : Bool) (system_prompt : String) : Agent :=
  { model_id :=
      if use_pro then "gemini/gemini-2.5-pro" else "gemini/gemini-2.5-flash"
    context_manager := (ContextManager.init 10 600000).set_system_prompt system_prompt }

/-- The `pro` command handler of `run_interactive_mode` (`main.py`, lines
227-241): detect whether the current model is Pro, then replace the agent
with a freshly created one on the other model. -/
def pro_command (agent : Agent) (system_prompt : String) : Agent :=
  let current_is_pro := str_contains agent.model_id.toLower "pro"
  create_agent (!current_is_pro) system_prompt

/-- A run of `ConversationHistory.add_interaction` calls: each element of
`ops` is a `(user_query, assistant_response, system_prompt_tokens)`
triple, applied in order. -/
def run_adds (tk : String → Nat) :
    List (String × String × Nat) → ConversationHistory → ConversationHistory
  | [], ch => ch
  | op :: ops, ch => run_adds tk ops (ch.add_interaction tk op.1 op.2.1 op.2.2)

/-- The interactions that a run of `add_interaction` calls inserts, in
insertion order. -/
def inserted_interactions (ops : List (String × String × Nat)) : List Interaction :=
  ops.map fun op => ⟨op.1, op.2.1⟩

/-- A concrete tokenizer instance used to exercise the model on concrete
inputs: one token per character. -/
def tk_len : String → Nat := String.length

/-! ## The spec's formula for `count_message_list_tokens`

The following definitions transcribe the specification sentence for the
tokenizer adapter, to be compared against `count_messages_tokens` as
embedded from the source. -/

/-- Token count of a field when it is string-valued, 0 otherwise. -/
def str_part (tk : String → Nat) : FieldValue → Nat
  | .str s => tk s
  | _ => 0

/-- Token count of the nested `text` entries of a list-valued field,
0 otherwise. -/
def list_part (tk : String → Nat) : FieldValue → Nat
  | .list items =>
    (items.map fun it =>
      match it with
      | .textItem t => tk t
      | .otherItem => 0).sum
  | _ => 0

/-- Spec formula, per message: tokens of every string-valued field. -/
def spec_string_field_tokens (tk : String → Nat) (m : RawMessage) : Nat :=
  (m.fields.map fun kv => str_part tk kv.2).sum

/-- Spec formula, per message: tokens of every nested `text` field inside
list-valued content. -/
def spec_nested_text_tokens (tk : String → Nat) (m : RawMessage) : Nat :=
  (m.fields.map fun kv => list_part tk kv.2).sum

/-- Spec formula, per message: 1 extra token if a `name` field is
present. -/
def spec_name_overhead (m : RawMessage) : Nat :=
  if "name" ∈ m.fields.map Prod.fst then 1 else 0

/-- The specification's formula for `count_message_list_tokens`: per
message, a fixed overhead of 3 plus the three contributions above, and a
single reply-preamble constant of 3 for the whole list. -/
def spec_count_message_list_tokens (tk : String → Nat)
    (messages : List RawMessage) : Nat :=
  (messages.map fun m =>
    3 + spec_string_field_tokens tk m + spec_nested_text_tokens tk m
      + spec_name_overhead m).sum + 3

/-! ## Well-formedness of reachable `ConversationHistory` states -/

namespace ConversationHistory

/-- Invariants that every state reachable through the Python API
satisfies: the token-count deque mirrors the interaction deque entry for
entry, the running total equals its sum, and the deque length respects
`maxlen = max_interactions`. -/
structure WF (tk : String → Nat) (ch : ConversationHistory) : Prop where
  counts_eq : ch.interaction_token_counts = ch.history.map (interaction_cost tk)
  total_eq : ch.total_tokens = ((ch.interaction_token_counts.sum : Nat) : Int)
  length_le : ch.history.length ≤ ch.max_interactions

theorem wf_init (tk : String → Nat) (m n : Nat) : WF tk (init m n) :=
  ⟨rfl, rfl, Nat.zero_le m⟩

theorem pop_oldest_max_tokens (ch : ConversationHistory) :
    ch.pop_oldest.max_tokens = ch.max_tokens := by
  obtain ⟨m, mt, hist, counts, tot⟩ := ch
  cases hist <;> cases counts <;> rfl

theorem pop_oldest_max_interactions (ch : ConversationHistory) :
    ch.pop_oldest.max_interactions = ch.max_interactions := by
  obtain ⟨m, mt, hist, counts, tot⟩ := ch
  cases hist <;> cases counts <;> rfl

theorem pop_oldest_history (ch : ConversationHistory) :
    ch.pop_oldest.history = ch.history.tail := by
  obtain ⟨m, mt, hist, counts, tot⟩ := ch
  cases hist <;> cases counts <;> rfl

theorem wf_pop_oldest {tk : String → Nat} {ch : ConversationHistory}
    (h : WF tk ch) : WF tk ch.pop_oldest := by
  obtain ⟨m, mt, hist, counts, tot⟩ := ch
  obtain ⟨hc, ht, hl⟩ := h
  cases hist with
  | nil =>
    cases counts with
    | nil => exact ⟨hc, ht, hl⟩
    | cons c cs => cases hc
  | cons x rest =>
    simp only [List.map_cons] at hc
    subst hc
    simp only [List.sum_cons, List.length_cons] at ht hl
    refine ⟨rfl, ?_, ?_⟩
    · simp only [pop_oldest]
      push_cast at ht ⊢
      omega
    · simp only [pop_oldest, List.length_map]
      omega

theorem trim_loop_max_tokens (sys : Nat) : ∀ (fuel : Nat) (ch : ConversationHistory),
    (trim_loop sys fuel ch).max_tokens = ch.max_tokens
  | 0, _ => rfl
  | fuel + 1, ch => by
    unfold trim_loop
    split
    · rfl
    · split
      · rw [trim_loop_max_tokens sys fuel, pop_oldest_max_tokens]
      · rfl

theorem trim_loop_max_interactions (sys : Nat) : ∀ (fuel : Nat) (ch : ConversationHistory),
    (trim_loop sys fuel ch).max_interactions = ch.max_interactions
  | 0, _ => rfl
  | fuel + 1, ch => by
    unfold trim_loop
    split
    · rfl
    · split
      · rw [trim_loop_max_interactions sys fuel, pop_oldest_max_interactions]
      · rfl

theorem trim_loop_history_suffix (sys : Nat) : ∀ (fuel : Nat) (ch : ConversationHistory),
    (trim_loop sys fuel ch).history <:+ ch.history
  | 0, _ => List.suffix_refl _
  | fuel + 1, ch => by
    unfold trim_loop
    split
    · exact List.suffix_refl _
    · split
      · refine (trim_loop_history_suffix sys fuel ch.pop_oldest).trans ?_
        rw [pop_oldest_history]
        exact List.tail_suffix _
      · exact List.suffix_refl _

theorem wf_trim_loop {tk : String → Nat} (sys : Nat) :
    ∀ (fuel : Nat) {ch : ConversationHistory}, WF tk ch → WF tk (trim_loop sys fuel ch)
  | 0, _, h => h
  | fuel + 1, ch, h => by
    unfold trim_loop
    split
    · exact h
    · split
      · exact wf_trim_loop sys fuel (wf_pop_oldest h)
      · exact h

theorem trim_loop_post (sys : Nat) : ∀ (fuel : Nat) (ch : ConversationHistory),
    ch.history.length ≤ fuel →
    (trim_loop sys fuel ch).history = [] ∨
      (trim_loop sys fuel ch).total_tokens + (sys : Int) ≤ (ch.max_tokens : Int)
  | 0, ch, h => by
    left
    have : ch.history = [] := List.eq_nil_of_length_eq_zero (Nat.le_zero.mp h)
    simp [trim_loop, this]
  | fuel + 1, ch, h => by
    unfold trim_loop
    split
    · left; assumption
    · rename_i x rest hh
      split
      · rename_i hover
        have hlen : ch.pop_oldest.history.length ≤ fuel := by
          rw [pop_oldest_history, hh]
          rw [hh] at h
          simp only [List.length_cons] at h
          simpa using Nat.lt_succ_iff.mp (Nat.lt_of_lt_of_le (Nat.lt_succ_self _) h)
        have := trim_loop_post sys fuel ch.pop_oldest hlen
        rwa [pop_oldest_max_tokens] at this
      · rename_i hover
        right
        exact not_lt.mp hover

theorem trim_loop_noop (sys fuel : Nat) (ch : ConversationHistory)
    (h : ch.total_tokens + (sys : Int) ≤ (ch.max_tokens : Int)) :
    trim_loop sys fuel ch = ch := by
  cases fuel with
  | zero => rfl
  | succ f =>
    unfold trim_loop
    split
    · rfl
    · rw [if_neg (not_lt.mpr h)]

theorem trim_max_tokens (ch : ConversationHistory) (sys : Nat) :
    (ch.trim_to_token_limit sys).max_tokens = ch.max_tokens :=
  trim_loop_max_tokens sys _ ch

theorem trim_max_interactions (ch : ConversationHistory) (sys : Nat) :
    (ch.trim_to_token_limit sys).max_interactions = ch.max_interactions :=
  trim_loop_max_interactions sys _ ch

theorem trim_history_suffix (ch : ConversationHistory) (sys : Nat) :
    (ch.trim_to_token_limit sys).history <:+ ch.history :=
  trim_loop_history_suffix sys _ ch

theorem wf_trim {tk : String → Nat} {ch : ConversationHistory} (sys : Nat)
    (h : WF tk ch) : WF tk (ch.trim_to_token_limit sys) :=
  wf_trim_loop sys _ h

/-- Postcondition of `_trim_to_token_limit`: either the queue was emptied
or the running total plus the external overhead fits the budget. -/
theorem trim_post (ch : ConversationHistory) (sys : Nat) :
    (ch.trim_to_token_limit sys).history = [] ∨
      (ch.trim_to_token_limit sys).total_tokens + (sys : Int) ≤ (ch.max_tokens : Int) :=
  trim_loop_post sys _ ch le_rfl

theorem trim_noop {ch : ConversationHistory} {sys : Nat}
    (h : ch.total_tokens + (sys : Int) ≤ (ch.max_tokens : Int)) :
    ch.trim_to_token_limit sys = ch :=
  trim_loop_noop sys _ ch h

/-- A well-formed state has a non-negative running total. -/
theorem wf_total_nonneg {tk : String → Nat} {ch : ConversationHistory}
    (h : WF tk ch) : 0 ≤ ch.total_tokens := by
  rw [h.total_eq]
  exact Int.natCast_nonneg _

/-- External overhead exceeding the whole budget forces the trim loop to
evict everything. -/
theorem trim_empty_of_overflow {tk : String → Nat} {ch : ConversationHistory}
    {sys : Nat} (hwf : WF tk ch) (h : (ch.max_tokens : Int) < (sys : Int)) :
    (ch.trim_to_token_limit sys).history = [] := by
  rcases trim_post ch sys with he | hle
  · exact he
  · have h0 : 0 ≤ (ch.trim_to_token_limit sys).total_tokens :=
      wf_total_nonneg (wf_trim sys hwf)
    omega

theorem deque_append_length_le {α : Type} (m : Nat) (l : List α) (x : α) :
    (deque_append m l x).length ≤ m := by
  simp only [deque_append, List.length_drop, List.length_append, List.length_cons,
    List.length_nil]
  omega

theorem deque_append_suffix {α : Type} (m : Nat) (l : List α) (x : α) :
    deque_append m l x <:+ l ++ [x] :=
  List.drop_suffix _ _

theorem deque_append_of_lt {α : Type} {m : Nat} {l : List α} (x : α)
    (h : l.length < m) : deque_append m l x = l ++ [x] := by
  unfold deque_append
  rw [Nat.sub_eq_zero_of_le h, List.drop_zero]

theorem deque_append_cons_of_eq {α : Type} {m : Nat} {y : α} {t : List α} (x : α)
    (h : (y :: t).length = m) : deque_append m (y :: t) x = t ++ [x] := by
  unfold deque_append
  have h1 : (y :: t).length + 1 - m = 1 := by omega
  rw [h1, List.cons_append, List.drop_succ_cons, List.drop_zero]

/-- `add_interaction` written out: the capacity pre-subtraction feeds the
two deque appends, then the trim loop runs with the external overhead. -/
theorem add_interaction_eq (tk : String → Nat) (ch : ConversationHistory)
    (u a : String) (sys : Nat) :
    ch.add_interaction tk u a sys =
      trim_to_token_limit
        { max_interactions := ch.max_interactions
          max_tokens := ch.max_tokens
          history := deque_append ch.max_interactions ch.history ⟨u, a⟩
          interaction_token_counts :=
            deque_append ch.max_interactions ch.interaction_token_counts
              (interaction_cost tk ⟨u, a⟩)
          total_tokens :=
            (if ch.history.length = ch.max_interactions then
              match ch.interaction_token_counts with
              | [] => ch.total_tokens
              | oldest :: _ => ch.total_tokens - (oldest : Int)
            else ch.total_tokens) + (interaction_cost tk ⟨u, a⟩ : Int) }
        sys := by
  obtain ⟨m, mt, hist, counts, tot⟩ := ch
  simp only [add_interaction]
  split
  · split <;> rfl
  · rfl

theorem add_max_tokens (tk : String → Nat) (ch : ConversationHistory)
    (u a : String) (sys : Nat) :
    (ch.add_interaction tk u a sys).max_tokens = ch.max_tokens := by
  rw [add_interaction_eq, trim_max_tokens]

theorem add_max_interactions (tk : String → Nat) (ch : ConversationHistory)
    (u a : String) (sys : Nat) :
    (ch.add_interaction tk u a sys).max_interactions = ch.max_interactions := by
  rw [add_interaction_eq, trim_max_interactions]

theorem add_history_suffix (tk : String → Nat) (ch : ConversationHistory)
    (u a : String) (sys : Nat) :
    (ch.add_interaction tk u a sys).history <:+ ch.history ++ [⟨u, a⟩] := by
  rw [add_interaction_eq]
  exact (trim_history_suffix _ _).trans (deque_append_suffix _ _ _)

theorem add_history_length_le (tk : String → Nat) (ch : ConversationHistory)
    (u a : String) (sys : Nat) :
    (ch.add_interaction tk u a sys).history.length ≤ ch.max_interactions := by
  rw [add_interaction_eq]
  exact le_trans (trim_history_suffix _ _).length_le (deque_append_length_le _ _ _)

/-- Postcondition of `add_interaction`, inherited from the final trim. -/
theorem add_post (tk : String → Nat) (ch : ConversationHistory)
    (u a : String) (sys : Nat) :
    (ch.add_interaction tk u a sys).history = [] ∨
      (ch.add_interaction tk u a sys).total_tokens + (sys : Int) ≤ (ch.max_tokens : Int) := by
  rw [add_interaction_eq]
  exact trim_post _ _

theorem deque_append_map {α β : Type} (f : α → β) (m : Nat) (l : List α) (x : α) :
    deque_append m (l.map f) (f x) = (deque_append m l x).map f := by
  simp [deque_append, List.map_drop, List.length_map]

/-- `add_interaction` preserves well-formedness whenever the deque
capacity is at least one (capacity zero silently discards the append but
still bumps the running total — see the C3 counterexample). -/
theorem wf_add {tk : String → Nat} {ch : ConversationHistory}
    (u a : String) (sys : Nat) (hwf : WF tk ch) (hm : 1 ≤ ch.max_interactions) :
    WF tk (ch.add_interaction tk u a sys) := by
  rw [add_interaction_eq]
  apply wf_trim
  obtain ⟨m, mt, hist, counts, tot⟩ := ch
  obtain ⟨hc, ht, hl⟩ := hwf
  simp only at hc ht hl hm ⊢
  subst hc
  by_cases hcap : hist.length = m
  · cases hist with
    | nil => simp at hcap; omega
    | cons h0 hs =>
      have hclen : (interaction_cost tk h0 :: hs.map (interaction_cost tk)).length = m := by
        simpa using hcap
      refine ⟨?_, ?_, ?_⟩
      · simp only [List.map_cons]
        rw [deque_append_cons_of_eq _ hclen,
          deque_append_cons_of_eq (Interaction.mk u a) hcap]
        simp
      · simp only [List.map_cons, if_pos hcap]
        rw [deque_append_cons_of_eq _ hclen]
        simp only [List.map_cons, List.sum_cons, List.sum_append, List.sum_nil] at ht ⊢
        push_cast at ht ⊢
        omega
      · rw [deque_append_cons_of_eq (Interaction.mk u a) hcap]
        simp only [List.length_cons] at hcap
        simp only [List.length_append, List.length_cons, List.length_nil]
        omega
  · have hlt : hist.length < m := lt_of_le_of_ne hl hcap
    have hltc : (hist.map (interaction_cost tk)).length < m := by simpa using hlt
    refine ⟨?_, ?_, ?_⟩
    · rw [deque_append_of_lt _ hltc, deque_append_of_lt _ hlt]
      simp
    · rw [if_neg hcap, deque_append_of_lt _ hltc]
      simp only [List.sum_append, List.sum_cons, List.sum_nil]
      push_cast at ht ⊢
      omega
    · rw [deque_append_of_lt _ hlt]
      simp only [List.length_append, List.length_cons, List.length_nil]
      omega

/-- An empty well-formed history carries a zero running total. -/
theorem wf_empty_total {tk : String → Nat} {ch : ConversationHistory}
    (hwf : WF tk ch) (h : ch.history = []) : ch.total_tokens = 0 := by
  rw [hwf.total_eq, hwf.counts_eq, h]
  rfl

end ConversationHistory

/-! ## General list helpers -/

theorem mem_le_sum {l : List Nat} {x : Nat} (h : x ∈ l) : x ≤ l.sum := by
  induction l with
  | nil => cases h
  | cons a t ih =>
    rcases List.mem_cons.mp h with rfl | h2
    · simp
    · have := ih h2
      simp only [List.sum_cons]
      omega

/-- A non-empty suffix of `l ++ [x]` contains `x`. -/
theorem mem_of_ne_nil_suffix_concat {α : Type} {s l : List α} {x : α}
    (h : s <:+ l ++ [x]) (hne : s ≠ []) : x ∈ s := by
  obtain ⟨w, hw⟩ := h
  rcases List.eq_nil_or_concat s with rfl | ⟨t, y, rfl⟩
  · exact absurd rfl hne
  · have h2 : (w ++ t) ++ [y] = l ++ [x] := by
      simpa [List.append_assoc] using hw
    have h3 : y = x := by
      have := congrArg List.getLast? h2
      simpa using this
    subst h3
    simp

theorem suffix_append_right {α : Type} {s l : List α} (t : List α)
    (h : s <:+ l) : s ++ t <:+ l ++ t := by
  obtain ⟨w, rfl⟩ := h
  exact ⟨w, (List.append_assoc w s t).symm⟩

theorem sum_map_add {α : Type} (l : List α) (f g : α → Nat) :
    (l.map fun x => f x + g x).sum = (l.map f).sum + (l.map g).sum := by
  induction l with
  | nil => rfl
  | cons x t ih =>
    simp only [List.map_cons, List.sum_cons, ih]
    omega

/-- On a duplicate-free key list, summing the per-occurrence `name`
overhead is the same as asking whether a `name` key is present. -/
theorem name_indicator_sum (l : List (String × FieldValue))
    (h : (l.map Prod.fst).Nodup) :
    (l.map fun kv => if kv.1 = "name" then 1 else 0).sum
      = if "name" ∈ l.map Prod.fst then 1 else 0 := by
  induction l with
  | nil => simp
  | cons kv rest ih =>
    simp only [List.map_cons, List.nodup_cons] at h
    obtain ⟨hnot, hnd⟩ := h
    simp only [List.map_cons, List.sum_cons, ih hnd, List.mem_cons]
    by_cases hk : kv.1 = "name"
    · rw [hk] at hnot
      simp [hk, hnot]
    · have hk2 : ¬ ("name" = kv.1) := fun h => hk h.symm
      by_cases hmem : "name" ∈ List.map Prod.fst rest <;> simp [hk, hk2, hmem]

/-! ## `ContextManager` operation lemmas -/

namespace ContextManager

open ConversationHistory

theorem refresh_system_prompt (tk : String → Nat) (cm : ContextManager) (p : String) :
    (cm.refresh_with_system_prompt tk p).system_prompt = p := by
  simp only [refresh_with_system_prompt, set_system_prompt]
  split <;> rfl

theorem refresh_max_context (tk : String → Nat) (cm : ContextManager) (p : String) :
    (cm.refresh_with_system_prompt tk p).max_context_tokens = cm.max_context_tokens := by
  simp only [refresh_with_system_prompt, set_system_prompt]
  split <;> rfl

theorem refresh_conv_max_tokens (tk : String → Nat) (cm : ContextManager) (p : String) :
    (cm.refresh_with_system_prompt tk p).conversation.max_tokens
      = cm.conversation.max_tokens := by
  simp only [refresh_with_system_prompt, set_system_prompt]
  split
  · exact trim_max_tokens _ _
  · rfl

theorem refresh_history_suffix (tk : String → Nat) (cm : ContextManager) (p : String) :
    (cm.refresh_with_system_prompt tk p).conversation.history
      <:+ cm.conversation.history := by
  simp only [refresh_with_system_prompt, set_system_prompt]
  split
  · exact trim_history_suffix _ _
  · exact List.suffix_refl _

theorem wf_refresh {tk : String → Nat} {cm : ContextManager} (p : String)
    (hwf : WF tk cm.conversation) :
    WF tk (cm.refresh_with_system_prompt tk p).conversation := by
  simp only [refresh_with_system_prompt, set_system_prompt]
  split
  · exact wf_trim _ hwf
  · exact hwf

/-- After a refresh the stored history either fits under the ceiling
together with the new prompt or has been completely emptied. -/
theorem refresh_post (tk : String → Nat) (cm : ContextManager) (p : String)
    (hmax : cm.conversation.max_tokens = cm.max_context_tokens) :
    (cm.refresh_with_system_prompt tk p).conversation.total_tokens + (tk p : Int)
        ≤ (cm.max_context_tokens : Int) ∨
      (cm.refresh_with_system_prompt tk p).conversation.history = [] := by
  simp only [refresh_with_system_prompt, set_system_prompt]
  split
  · rename_i hover
    rcases trim_post cm.conversation (tk p) with he | hle
    · right; exact he
    · left; rw [← hmax]; exact hle
  · rename_i hover
    left
    simpa using not_lt.mp hover

theorem set_system_prompt_eq_self {cm : ContextManager} {p : String}
    (h : cm.system_prompt = p) : cm.set_system_prompt p = cm := by
  cases cm
  simp only at h
  subst h
  rfl

end ContextManager

/-! ## Lemmas about runs of `add_interaction` calls -/

open ConversationHistory in
/-- Along any run of `add_interaction` calls the history stays a suffix
of the accumulated insertion sequence, its length stays bounded by the
capacity, and the capacity itself never changes. -/
theorem run_adds_suffix_aux (tk : String → Nat) :
    ∀ (ops : List (String × String × Nat)) (ch : ConversationHistory)
      (l : List Interaction),
      ch.history <:+ l → ch.history.length ≤ ch.max_interactions →
      (run_adds tk ops ch).history <:+ l ++ inserted_interactions ops ∧
        (run_adds tk ops ch).history.length ≤ ch.max_interactions ∧
        (run_adds tk ops ch).max_interactions = ch.max_interactions
  | [], ch, l, hs, hl => by
    refine ⟨?_, hl, rfl⟩
    simpa [inserted_interactions, run_adds] using hs
  | op :: ops, ch, l, hs, hl => by
    have hstep := run_adds_suffix_aux tk ops
      (ch.add_interaction tk op.1 op.2.1 op.2.2) (l ++ [⟨op.1, op.2.1⟩])
      ((add_history_suffix tk ch op.1 op.2.1 op.2.2).trans
        (suffix_append_right _ hs))
      (by
        rw [add_max_interactions]
        exact add_history_length_le tk ch op.1 op.2.1 op.2.2)
    rw [add_max_interactions] at hstep
    refine ⟨?_, hstep.2.1, hstep.2.2⟩
    have h1 := hstep.1
    simpa [run_adds, inserted_interactions, List.append_assoc] using h1

open ConversationHistory in
/-- A run of `add_interaction` calls preserves well-formedness when the
capacity is at least one. -/
theorem run_adds_wf (tk : String → Nat) :
    ∀ (ops : List (String × String × Nat)) (ch : ConversationHistory),
      WF tk ch → 1 ≤ ch.max_interactions → WF tk (run_adds tk ops ch)
  | [], _, hwf, _ => hwf
  | op :: ops, ch, hwf, hm => by
    apply run_adds_wf tk ops _ (wf_add op.1 op.2.1 op.2.2 hwf hm)
    rw [add_max_interactions]
    exact hm

/-! ## Per-message splitting for the tokenizer formula -/

/-- The loop body of `count_messages_tokens` over one message agrees with
the spec's three per-message contributions, provided the message's keys
are duplicate-free (as Python dict keys always are). -/
theorem message_tokens_split (tk : String → Nat) (m : RawMessage)
    (h : (m.fields.map Prod.fst).Nodup) :
    (m.fields.map fun kv =>
      ConversationHistory.field_value_tokens tk kv.2
        + (if kv.1 = "name" then 1 else 0)).sum
      = spec_string_field_tokens tk m + spec_nested_text_tokens tk m
        + spec_name_overhead m := by
  rw [sum_map_add]
  have hfun : (fun kv : String × FieldValue =>
      ConversationHistory.field_value_tokens tk kv.2)
      = fun kv => str_part tk kv.2 + list_part tk kv.2 := by
    funext kv
    obtain ⟨k, v⟩ := kv
    cases v <;>
      simp [ConversationHistory.field_value_tokens, str_part, list_part]
  rw [hfun, sum_map_add, name_indicator_sum m.fields h]
  rfl

/-- A refresh whose prompt is already stored and whose state already fits
(or is empty) changes nothing. -/
theorem refresh_noop {tk : String → Nat} {cm : ContextManager} {p : String}
    (hp : cm.system_prompt = p)
    (hfit : cm.conversation.total_tokens + (tk p : Int)
        ≤ (cm.max_context_tokens : Int) ∨ cm.conversation.history = []) :
    cm.refresh_with_system_prompt tk p = cm := by
  obtain ⟨conv, sp, mc⟩ := cm
  simp only at hp
  subst hp
  simp only [ContextManager.refresh_with_system_prompt,
    ContextManager.set_system_prompt] at hfit ⊢
  rcases hfit with hle | he
  · rw [if_neg (not_lt.mpr hle)]
  · by_cases hc : (mc : Int) < conv.total_tokens + (tk sp : Int)
    · rw [if_pos hc]
      have htr : conv.trim_to_token_limit (tk sp) = conv := by
        unfold ConversationHistory.trim_to_token_limit
        rw [he]
        rfl
      rw [htr]
    · rw [if_neg hc]

/-! ## Claims -/

open ConversationHistory

/-- C1 (amended): after `ContextManager.add_interaction` or
`ContextManager.refresh_with_system_prompt` on a well-formed state with
positive capacity, the token count of the stored system prompt plus
`conversation.total_tokens` is at most `max_context_tokens`, unless the
queue has been trimmed to empty and the system prompt's token count alone
exceeds the budget.  (The trim loop can and does evict the most recent
interaction, so the exception is an emptied queue, not a retained
oversized interaction.) -/
theorem claim_C1_budget_bound (tk : String → Nat) (cm : ContextManager)
    (u a p : String)
    (hwf : WF tk cm.conversation)
    (hmax : cm.conversation.max_tokens = cm.max_context_tokens)
    (hm : 1 ≤ cm.conversation.max_interactions)
    (htk : tk "" = 0) :
    ((tk (cm.add_interaction tk u a).system_prompt : Int)
        + (cm.add_interaction tk u a).conversation.total_tokens
        ≤ ((cm.add_interaction tk u a).max_context_tokens : Int) ∨
      ((cm.add_interaction tk u a).conversation.history = [] ∧
        ((cm.add_interaction tk u a).max_context_tokens : Int)
          < (tk (cm.add_interaction tk u a).system_prompt : Int))) ∧
    ((tk (cm.refresh_with_system_prompt tk p).system_prompt : Int)
        + (cm.refresh_with_system_prompt tk p).conversation.total_tokens
        ≤ ((cm.refresh_with_system_prompt tk p).max_context_tokens : Int) ∨
      ((cm.refresh_with_system_prompt tk p).conversation.history = [] ∧
        ((cm.refresh_with_system_prompt tk p).max_context_tokens : Int)
          < (tk (cm.refresh_with_system_prompt tk p).system_prompt : Int))) := by
  constructor
  · have hsys : (if cm.system_prompt ≠ "" then tk cm.system_prompt else 0)
        = tk cm.system_prompt := by
      by_cases hp : cm.system_prompt = ""
      · simp [hp, htk]
      · simp [hp]
    have hconv : (cm.add_interaction tk u a).conversation
        = cm.conversation.add_interaction tk u a
          (if cm.system_prompt ≠ "" then tk cm.system_prompt else 0) := rfl
    have hsp : (cm.add_interaction tk u a).system_prompt = cm.system_prompt := rfl
    have hmc : (cm.add_interaction tk u a).max_context_tokens
        = cm.max_context_tokens := rfl
    rw [hsp, hmc, hconv, hsys]
    rcases add_post tk cm.conversation u a (tk cm.system_prompt) with he | hle
    · have h0 : (cm.conversation.add_interaction tk u a
          (tk cm.system_prompt)).total_tokens = 0 :=
        wf_empty_total (wf_add u a (tk cm.system_prompt) hwf hm) he
      by_cases hb : (tk cm.system_prompt : Int) ≤ (cm.max_context_tokens : Int)
      · left
        rw [h0]
        simpa using hb
      · right
        exact ⟨he, not_le.mp hb⟩
    · left
      rw [hmax] at hle
      omega
  · rw [ContextManager.refresh_system_prompt, ContextManager.refresh_max_context]
    rcases ContextManager.refresh_post tk cm p hmax with hle | he
    · left
      omega
    · have h0 : (cm.refresh_with_system_prompt tk p).conversation.total_tokens = 0 :=
        wf_empty_total (ContextManager.wf_refresh p hwf) he
      by_cases hb : (tk p : Int) ≤ (cm.max_context_tokens : Int)
      · left
        rw [h0]
        simpa using hb
      · right
        exact ⟨he, not_le.mp hb⟩

/-- C1 counterexample to the claim as stated: a 20-token system prompt
refreshed into a manager with budget 10 trims the single retained
interaction away entirely — the queue ends empty (not "exactly one
oversized interaction") while the budget bound is violated. -/
theorem claim_C1_counterexample :
    (((ContextManager.init 8 10).add_interaction tk_len "u" "a"
        ).refresh_with_system_prompt tk_len
        "aaaaaaaaaaaaaaaaaaaa").conversation.history = [] ∧
    ¬ ((tk_len "aaaaaaaaaaaaaaaaaaaa" : Int)
        + (((ContextManager.init 8 10).add_interaction tk_len "u" "a"
            ).refresh_with_system_prompt tk_len
            "aaaaaaaaaaaaaaaaaaaa").conversation.total_tokens
        ≤ ((((ContextManager.init 8 10).add_interaction tk_len "u" "a"
            ).refresh_with_system_prompt tk_len
            "aaaaaaaaaaaaaaaaaaaa").max_context_tokens : Int)) := by
  decide

/-- Witness for `claim_C1_budget_bound` at a concrete input. -/
theorem claim_C1_budget_bound_witness :
    ((tk_len ((ContextManager.init 8 100).add_interaction tk_len "u" "a").system_prompt : Int)
        + ((ContextManager.init 8 100).add_interaction tk_len "u" "a").conversation.total_tokens
        ≤ (((ContextManager.init 8 100).add_interaction tk_len "u" "a").max_context_tokens : Int) ∨
      (((ContextManager.init 8 100).add_interaction tk_len "u" "a").conversation.history = [] ∧
        (((ContextManager.init 8 100).add_interaction tk_len "u" "a").max_context_tokens : Int)
          < (tk_len ((ContextManager.init 8 100).add_interaction tk_len "u" "a").system_prompt : Int))) ∧
    ((tk_len ((ContextManager.init 8 100).refresh_with_system_prompt tk_len "p").system_prompt : Int)
        + ((ContextManager.init 8 100).refresh_with_system_prompt tk_len "p").conversation.total_tokens
        ≤ (((ContextManager.init 8 100).refresh_with_system_prompt tk_len "p").max_context_tokens : Int) ∨
      (((ContextManager.init 8 100).refresh_with_system_prompt tk_len "p").conversation.history = [] ∧
        (((ContextManager.init 8 100).refresh_with_system_prompt tk_len "p").max_context_tokens : Int)
          < (tk_len ((ContextManager.init 8 100).refresh_with_system_prompt tk_len "p").system_prompt : Int))) :=
  claim_C1_budget_bound tk_len (ContextManager.init 8 100) "u" "a" "p"
    ⟨rfl, rfl, by decide⟩ rfl (by decide) rfl

/-- C2 (amended): an interaction whose own token cost exceeds
`max_tokens` is itself evicted by the trim loop - after
`add_interaction(user, assistant, 0)` the queue is empty.  The loop
condition `len(history) > 0` only guards popping from an empty queue; it
does not retain a final oversized interaction. -/
theorem claim_C2_oversized_evicted (tk : String → Nat)
    (ch : ConversationHistory) (u a : String)
    (hwf : WF tk ch)
    (hcost : ch.max_tokens < interaction_cost tk ⟨u, a⟩) :
    (ch.add_interaction tk u a 0).history = [] := by
  rcases add_post tk ch u a 0 with he | hle
  · exact he
  · by_contra hne
    by_cases hm : 1 ≤ ch.max_interactions
    · have hwf2 := wf_add u a 0 hwf hm
      have hx : Interaction.mk u a ∈ (ch.add_interaction tk u a 0).history :=
        mem_of_ne_nil_suffix_concat (add_history_suffix tk ch u a 0) hne
      have hle2 : interaction_cost tk ⟨u, a⟩
          ≤ ((ch.add_interaction tk u a 0).history.map (interaction_cost tk)).sum :=
        mem_le_sum (List.mem_map_of_mem _ hx)
      have htot : (ch.add_interaction tk u a 0).total_tokens
          = (((ch.add_interaction tk u a 0).history.map (interaction_cost tk)).sum : Int) := by
        rw [hwf2.total_eq, hwf2.counts_eq]
      rw [htot] at hle
      omega
    · have hm0 : ch.max_interactions = 0 := by omega
      have hh : ch.history = [] := by
        have := hwf.length_le
        rw [hm0] at this
        exact List.eq_nil_of_length_eq_zero (Nat.le_zero.mp this)
      apply hne
      rw [add_interaction_eq]
      have hd : deque_append ch.max_interactions ch.history (Interaction.mk u a)
          = [] := by
        rw [hh, hm0]
        rfl
      unfold trim_to_token_limit
      rw [hd]
      rfl

/-- C2 counterexample to the claim as stated: with `max_tokens = 5` the
pair ("u", "a") costs 8 tokens, yet after `add_interaction` the queue is
empty rather than holding the oversized interaction. -/
theorem claim_C2_counterexample :
    (ConversationHistory.init 8 5).max_tokens
        < interaction_cost tk_len ⟨"u", "a"⟩ ∧
      ((ConversationHistory.init 8 5).add_interaction tk_len "u" "a" 0).history = [] := by
  decide

/-- Witness for `claim_C2_oversized_evicted` at a concrete input. -/
theorem claim_C2_oversized_evicted_witness :
    ((ConversationHistory.init 8 5).add_interaction tk_len "u" "a" 0).history = [] :=
  claim_C2_oversized_evicted tk_len (ConversationHistory.init 8 5) "u" "a"
    ⟨rfl, rfl, by decide⟩ (by decide)

/-- C3 (amended): for every sequence of `add_interaction` calls on a
history with capacity at least one, `total_tokens` equals the sum of the
per-interaction token costs of the currently retained interactions.
(With capacity zero the deque discards every append while the running
total still grows, so the invariant needs `1 ≤ max_interactions`.) -/
theorem claim_C3_no_drift (tk : String → Nat)
    (ops : List (String × String × Nat)) (m n : Nat) (hm : 1 ≤ m) :
    (run_adds tk ops (ConversationHistory.init m n)).total_tokens
      = (((run_adds tk ops (ConversationHistory.init m n)).history.map
          (interaction_cost tk)).sum : Int) := by
  have hwf := run_adds_wf tk ops (ConversationHistory.init m n)
    (wf_init tk m n) hm
  rw [hwf.total_eq, hwf.counts_eq]

/-- C3 counterexample to the claim as stated: with `max_interactions = 0`
a single `add_interaction` leaves `total_tokens = 8` while the retained
queue is empty (sum 0) — the running total drifts. -/
theorem claim_C3_counterexample :
    ¬ ((run_adds tk_len [("a", "b", 0)] (ConversationHistory.init 0 1000)).total_tokens
      = (((run_adds tk_len [("a", "b", 0)]
          (ConversationHistory.init 0 1000)).history.map
          (interaction_cost tk_len)).sum : Int)) := by
  decide

/-- Witness for `claim_C3_no_drift` at a concrete input. -/
theorem claim_C3_no_drift_witness :
    (run_adds tk_len [("a", "b", 0), ("cc", "dd", 3)]
        (ConversationHistory.init 2 100)).total_tokens
      = (((run_adds tk_len [("a", "b", 0), ("cc", "dd", 3)]
          (ConversationHistory.init 2 100)).history.map
          (interaction_cost tk_len)).sum : Int) :=
  claim_C3_no_drift tk_len [("a", "b", 0), ("cc", "dd", 3)] 2 100 (by decide)

/-- C4 (amended): the `pro` command replaces the agent with a freshly
created one: the new agent's `ContextManager` starts with an empty
conversation history and zero tracked tokens (the previous session's
history is discarded, not carried over), the regenerated system prompt is
installed, and the model id toggles between Flash and Pro. -/
theorem claim_C4_model_switch_fresh_history (agent : Agent) (sp : String) :
    (pro_command agent sp).context_manager.conversation.history = [] ∧
    (pro_command agent sp).context_manager.conversation.total_tokens = 0 ∧
    (pro_command agent sp).context_manager.system_prompt = sp ∧
    (pro_command agent sp).model_id
      = (if str_contains agent.model_id.toLower "pro"
        then "gemini/gemini-2.5-flash" else "gemini/gemini-2.5-pro") := by
  refine ⟨rfl, rfl, rfl, ?_⟩
  simp only [pro_command, create_agent]
  cases str_contains agent.model_id.toLower "pro" <;> rfl

/-- C4 counterexample to the claim as stated: an agent holding one
interaction is switched with the `pro` command; the new agent's history
is empty, not equal to the pre-switch history. -/
theorem claim_C4_counterexample :
    (pro_command
        ⟨"gemini/gemini-2.5-flash",
          ⟨⟨10, 600000, [⟨"hi", "there"⟩], [14], 14⟩, "sys", 600000⟩⟩
        "sys").context_manager.conversation.history
      ≠ [Interaction.mk "hi" "there"] := by
  decide

/-- C5 (amended): `SmolDAgent.run` returns the wrapped call's string when
it succeeds, and otherwise retries exactly once via the direct fallback
call, recording and returning whatever the fallback returns; but when the
fallback call itself raises, the exception propagates to the caller
uncaught. -/
theorem claim_C5_run_fallback (tk : String → Nat) (st : SmolDAgentState)
    (q r : String) :
    (∀ fb : RunOutcome, st.run tk q (.ok r) fb
        = .ok (r, ⟨st.context_manager.add_interaction tk q r, st.call_counter + 1⟩)) ∧
    (∀ e : String, st.run tk q (.raises e) (.ok r)
        = .ok (r, ⟨st.context_manager.add_interaction tk q r, st.call_counter + 1⟩)) ∧
    (∀ e1 e2 : String, st.run tk q (.raises e1) (.raises e2) = .error e2) :=
  ⟨fun _ => rfl, fun _ => rfl, fun _ _ => rfl⟩

/-- C5 counterexample to the claim as stated: when the wrapped call and
the fallback call both raise, `run` does not return a string — the
fallback's exception propagates. -/
theorem claim_C5_counterexample :
    SmolDAgentState.run tk_len ⟨ContextManager.init 10 600000, 0⟩ "q"
        (.raises "transport error") (.raises "transport error again")
      = .error "transport error again" := rfl

/-- C6: along every sequence of `add_interaction` calls the retained
interactions form a contiguous suffix of the insertion sequence in
insertion order, and their number never exceeds `max_interactions`. -/
theorem claim_C6_fifo_suffix (tk : String → Nat)
    (ops : List (String × String × Nat)) (m n : Nat) :
    (run_adds tk ops (ConversationHistory.init m n)).history
        <:+ inserted_interactions ops ∧
      (run_adds tk ops (ConversationHistory.init m n)).history.length ≤ m := by
  have h := run_adds_suffix_aux tk ops (ConversationHistory.init m n) []
    List.nil_suffix (Nat.zero_le m)
  refine ⟨?_, h.2.1⟩
  simpa using h.1

/-- C7: `count_messages_tokens` computes exactly the spec's formula —
3 per message plus string-field tokens plus nested `text` tokens inside
list-valued content plus 1 per present `name` field, plus a final reply
preamble of 3 — for every message list whose messages have duplicate-free
keys (as Python dicts guarantee). -/
theorem claim_C7_token_formula (tk : String → Nat) (messages : List RawMessage)
    (h : ∀ m ∈ messages, (m.fields.map Prod.fst).Nodup) :
    ConversationHistory.count_messages_tokens tk messages
      = spec_count_message_list_tokens tk messages := by
  unfold ConversationHistory.count_messages_tokens spec_count_message_list_tokens
  have hmap : (messages.map fun m =>
      3 + (m.fields.map fun kv =>
        ConversationHistory.field_value_tokens tk kv.2
          + (if kv.1 = "name" then 1 else 0)).sum)
      = messages.map fun m =>
        3 + spec_string_field_tokens tk m + spec_nested_text_tokens tk m
          + spec_name_overhead m := by
    apply List.map_congr_left
    intro m hm
    rw [message_tokens_split tk m (h m hm)]
    omega
  rw [hmap]

/-- Witness for `claim_C7_token_formula` at a concrete input. -/
theorem claim_C7_token_formula_witness :
    ConversationHistory.count_messages_tokens tk_len
        [⟨[("role", .str "user"),
          ("content", .list [.textItem "hi", .otherItem]),
          ("name", .str "bob"), ("x", .other)]⟩]
      = spec_count_message_list_tokens tk_len
        [⟨[("role", .str "user"),
          ("content", .list [.textItem "hi", .otherItem]),
          ("name", .str "bob"), ("x", .other)]⟩] :=
  claim_C7_token_formula tk_len
    [⟨[("role", .str "user"),
      ("content", .list [.textItem "hi", .otherItem]),
      ("name", .str "bob"), ("x", .other)]⟩]
    (by decide)

/-- C8: `refresh_with_system_prompt` is idempotent — refreshing twice in
a row with the same prompt text leaves the whole manager (retained
interactions and `total_tokens` included) exactly as after the first
call; the second call evicts nothing further. -/
theorem claim_C8_refresh_idempotent (tk : String → Nat) (cm : ContextManager)
    (p : String)
    (hmax : cm.conversation.max_tokens = cm.max_context_tokens) :
    (cm.refresh_with_system_prompt tk p).refresh_with_system_prompt tk p
      = cm.refresh_with_system_prompt tk p := by
  apply refresh_noop (ContextManager.refresh_system_prompt tk cm p)
  rcases ContextManager.refresh_post tk cm p hmax with hle | he
  · left
    rw [ContextManager.refresh_max_context]
    exact hle
  · right
    exact he

/-- Witness for `claim_C8_refresh_idempotent` at a concrete input. -/
theorem claim_C8_refresh_idempotent_witness :
    (((ConversationHistory.init 4 10).add_interaction tk_len "q" "r" 0 |>
        (ContextManager.mk · "old" 10)).refresh_with_system_prompt tk_len
        "12345").refresh_with_system_prompt tk_len "12345"
      = ((ConversationHistory.init 4 10).add_interaction tk_len "q" "r" 0 |>
        (ContextManager.mk · "old" 10)).refresh_with_system_prompt tk_len
        "12345" :=
  claim_C8_refresh_idempotent tk_len
    ((ConversationHistory.init 4 10).add_interaction tk_len "q" "r" 0 |>
      (ContextManager.mk · "old" 10)) "12345" rfl

/-- C9: with an empty stored system prompt,
`get_full_context_for_llm true` returns exactly the flattened
conversation history with no system-role message prepended (the empty
prompt is treated as "no prompt set", not as an error). -/
theorem claim_C9_empty_prompt_omitted (cm : ContextManager)
    (h : cm.system_prompt = "") :
    cm.get_full_context_for_llm true = cm.conversation.get_messages_for_llm := by
  unfold ContextManager.get_full_context_for_llm
  rw [h]
  simp

/-- Witness for `claim_C9_empty_prompt_omitted` at a concrete input. -/
theorem claim_C9_empty_prompt_omitted_witness :
    ((ConversationHistory.init 3 50).add_interaction tk_len "hi" "yo" 0 |>
        (ContextManager.mk · "" 50)).get_full_context_for_llm true
      = ((ConversationHistory.init 3 50).add_interaction tk_len "hi" "yo" 0 |>
        (ContextManager.mk · "" 50)).conversation.get_messages_for_llm :=
  claim_C9_empty_prompt_omitted
    ((ConversationHistory.init 3 50).add_interaction tk_len "hi" "yo" 0 |>
      (ContextManager.mk · "" 50)) rfl

/-- C10: after `_trim_to_token_limit(overhead)` either the queue is empty
or `total_tokens + overhead ≤ max_tokens`; an overhead exceeding
`max_tokens` empties the whole history, the most recent interaction
included; and the same disjunction holds after `add_interaction` and
after `refresh_with_system_prompt` (with the new prompt's token cost as
overhead). -/
theorem claim_C10_trim_postcondition (tk : String → Nat) (cm : ContextManager)
    (sys : Nat) (u a p : String)
    (hwf : WF tk cm.conversation)
    (hmax : cm.conversation.max_tokens = cm.max_context_tokens) :
    ((cm.conversation.trim_to_token_limit sys).history = [] ∨
      (cm.conversation.trim_to_token_limit sys).total_tokens + (sys : Int)
        ≤ (cm.conversation.max_tokens : Int)) ∧
    ((cm.conversation.max_tokens : Int) < (sys : Int) →
      (cm.conversation.trim_to_token_limit sys).history = []) ∧
    ((cm.conversation.add_interaction tk u a sys).history = [] ∨
      (cm.conversation.add_interaction tk u a sys).total_tokens + (sys : Int)
        ≤ (cm.conversation.max_tokens : Int)) ∧
    ((cm.refresh_with_system_prompt tk p).conversation.history = [] ∨
      (cm.refresh_with_system_prompt tk p).conversation.total_tokens + (tk p : Int)
        ≤ (cm.max_context_tokens : Int)) := by
  refine ⟨trim_post _ _, fun hover => trim_empty_of_overflow hwf hover,
    add_post tk _ u a sys, ?_⟩
  rcases ContextManager.refresh_post tk cm p hmax with hle | he
  · right
    exact hle
  · left
    exact he

/-- Witness for `claim_C10_trim_postcondition` at a concrete input. -/
theorem claim_C10_trim_postcondition_witness :
    (((ContextManager.init 2 9).conversation.trim_to_token_limit 4).history = [] ∨
      ((ContextManager.init 2 9).conversation.trim_to_token_limit 4).total_tokens
          + (4 : Int)
        ≤ ((ContextManager.init 2 9).conversation.max_tokens : Int)) ∧
    (((ContextManager.init 2 9).conversation.max_tokens : Int) < ((4 : Nat) : Int) →
      ((ContextManager.init 2 9).conversation.trim_to_token_limit 4).history = []) ∧
    (((ContextManager.init 2 9).conversation.add_interaction tk_len "q" "r" 4).history = [] ∨
      ((ContextManager.init 2 9).conversation.add_interaction tk_len "q" "r" 4).total_tokens
          + (4 : Int)
        ≤ ((ContextManager.init 2 9).conversation.max_tokens : Int)) ∧
    (((ContextManager.init 2 9).refresh_with_system_prompt tk_len "pp").conversation.history = [] ∨
      ((ContextManager.init 2 9).refresh_with_system_prompt tk_len "pp").conversation.total_tokens
          + (tk_len "pp" : Int)
        ≤ (((ContextManager.init 2 9)).max_context_tokens : Int)) :=
  claim_C10_trim_postcondition tk_len (ContextManager.init 2 9) 4 "q" "r" "pp"
    ⟨rfl, rfl, by decide⟩ rfl

end SmolD
